import Mathlib

/-!
Verification of the commit-message linter hook (`src/commit_msg/hook.py`).

A commit message is modelled as a list of lines, each line a `List Char`
(Python strings of the `readlines` output, trailing newline preserved).
Every validator of the source is translated one-to-one; a Python raise
(`IndexError` from out-of-range indexing, or the `TypeError` the driver's
rule-8 reporting block hits when it iterates the `(None, False)`
number-missing marker) is modelled as the `none` branch of an `Option`
result.  The fail-fast driver `lint_commit_message` mirrors the sequence
of `flag, hint = rule(...); if not flag: return 1` blocks of the source,
including the rule-7 gate which never fails by itself and only decides
whether rule 8 runs.
-/

/-- A single line of the commit message, as a list of characters
(Python string). -/
abbrev MsgLine := List Char

/-- Python `s.startswith(p)` on character lists: first argument is the
string, second the pattern that must occur at the start. -/
def lineStartsWith : MsgLine → MsgLine → Bool
  | _, [] => true
  | [], _ :: _ => false
  | a :: s, b :: p => a == b && lineStartsWith s p

/-- Index of the first occurrence of `pat` inside `s` (leftmost match),
`none` when `pat` does not occur.  Used to model Python substring search. -/
def findSub (s pat : MsgLine) : Option Nat :=
  (List.range (s.length + 1)).find? (fun i => lineStartsWith (s.drop i) pat)

/-- Python `pat in s`: unanchored substring containment. -/
def containsSub (s pat : MsgLine) : Bool :=
  (List.range (s.length + 1)).any (fun i => lineStartsWith (s.drop i) pat)

/-- Python `s.split(sep)[1]` for a separator that occurs in `s`: the
segment strictly between the first and the second occurrence of `sep`
(up to the end of `s` when `sep` occurs only once).  `none` models the
`IndexError` raised when `sep` does not occur at all. -/
def segmentAfterFirst (s sep : MsgLine) : Option MsgLine :=
  match findSub s sep with
  | none => none
  | some i =>
    let rest := s.drop (i + sep.length)
    match findSub rest sep with
    | none => some rest
    | some j => some (rest.take j)

/-- Python `s.split()[0]`: drop leading whitespace, then take the maximal
whitespace-free run.  `none` models the `IndexError` raised when `s` is
empty or consists of whitespace only. -/
def firstToken (s : MsgLine) : Option MsgLine :=
  match s.dropWhile Char.isWhitespace with
  | [] => none
  | c :: t => some ((c :: t).takeWhile (fun d => !d.isWhitespace))

/-- Python `s.strip()`: remove whitespace from both ends. -/
def pyStrip (s : MsgLine) : MsgLine :=
  ((s.dropWhile Char.isWhitespace).reverse.dropWhile Char.isWhitespace).reverse

/-- Python `s.isdigit()`: nonempty and all characters are digits. -/
def pyIsDigit (s : MsgLine) : Bool :=
  !s.isEmpty && s.all Char.isDigit

/-- The rule-specific hint payload attached to a validator outcome.
`noHint` is Python `None`; `numberMissing` is the `(None, False)` marker of
`title_has_issue_number`. -/
inductive Hint where
  | noHint : Hint
  | maxLen : Nat → Hint
  | lineNo : Nat → Hint
  | commitTypes : List MsgLine → Hint
  | trackers : List (MsgLine × MsgLine) → Hint
  | numberMissing : Hint
deriving DecidableEq

/-- Final verdict of the linter: all rules passed, or the first failing
rule's pipeline index together with its hint. -/
inductive Verdict where
  | allPassed : Verdict
  | failedAt : Nat → Hint → Verdict
deriving DecidableEq

/-- Rule 1 (`has_title_and_body`): the message has at least 4 lines. -/
def has_title_and_body (m : List MsgLine) : Option (Bool × Hint) :=
  some (decide (4 ≤ m.length), Hint.noHint)

/-- Rule 2 (`title_within_max_length`): the title `m[0]` has length at
most 50, otherwise fail with hint 50. -/
def title_within_max_length (m : List MsgLine) : Option (Bool × Hint) :=
  match m.head? with
  | none => none
  | some title =>
    if 50 < title.length then some (false, Hint.maxLen 50)
    else some (true, Hint.noHint)

/-- Rule 3 (`has_title_body_separator`): `m[1].strip()` is empty. -/
def has_title_body_separator (m : List MsgLine) : Option (Bool × Hint) :=
  match m.get? 1 with
  | none => none
  | some sep => some ((pyStrip sep).isEmpty, Hint.noHint)

/-- Rule 4 (`has_trailing_line`): `m[-1].strip()` is empty. -/
def has_trailing_line (m : List MsgLine) : Option (Bool × Hint) :=
  match m.getLast? with
  | none => none
  | some lastLine => some ((pyStrip lastLine).isEmpty, Hint.noHint)

/-- Helper of rule 5: the Python `for line_number, line in enumerate(body,
start=n)` loop returning the counter of the first line longer than 72. -/
def firstLongLine : List MsgLine → Nat → Option Nat
  | [], _ => none
  | l :: ls, n => if 72 < l.length then some n else firstLongLine ls (n + 1)

/-- Rule 5 (`body_within_max_length`): every line of the body slice
`m[2:-1]` has length at most 72, otherwise fail with the 1-based position
of the first offending line. -/
def body_within_max_length (m : List MsgLine) : Option (Bool × Hint) :=
  match firstLongLine ((m.drop 2).dropLast) 1 with
  | none => some (true, Hint.noHint)
  | some n => some (false, Hint.lineNo n)

/-- The fixed catalog of valid commit types of the source. -/
def valid_commit_types : List MsgLine :=
  ["feat".toList, "fix".toList, "refactor".toList, "style".toList,
   "docs".toList, "test".toList, "chore".toList, "revert".toList]

/-- Rule 6 (`title_starts_with_commit_type`): the title starts with one of
the valid commit types immediately followed by a colon. -/
def title_starts_with_commit_type (m : List MsgLine) : Option (Bool × Hint) :=
  match m.head? with
  | none => none
  | some title =>
    if valid_commit_types.any (fun ct => lineStartsWith title (ct ++ [':'])) then
      some (true, Hint.noHint)
    else
      some (false, Hint.commitTypes valid_commit_types)

/-- Rule 7 (`commit_type_require_issue_number`), the gate: flag true when
the title starts with `feat:` or `fix:`, flag false otherwise; the hint is
always `None`. -/
def commit_type_require_issue_number (m : List MsgLine) : Option (Bool × Hint) :=
  match m.head? with
  | none => none
  | some title =>
    if lineStartsWith title ("feat:".toList) || lineStartsWith title ("fix:".toList) then
      some (true, Hint.noHint)
    else
      some (false, Hint.noHint)

/-- The fixed ordered issue-tracker catalog
`valid_issue_tracker_prefixes` of the source. -/
def valid_issue_tracker_handles : List (MsgLine × MsgLine) :=
  [("jr:".toList, "jira".toList), ("gh:".toList, "github".toList),
   ("gl:".toList, "gitlab".toList), ("bb:".toList, "bitbucket".toList),
   ("lp:".toList, "launchpad".toList)]

/-- Rule 8 (`title_has_issue_number`): scan the catalog in order for the
first handle contained anywhere in the title; then take
`title.split(handle)[1].split()[0]` and pass iff it is all digits.
`none` models the `IndexError` raised when the remainder after the handle
is empty or whitespace-only. -/
def title_has_issue_number (m : List MsgLine) : Option (Bool × Hint) :=
  match m.head? with
  | none => none
  | some title =>
    match valid_issue_tracker_handles.find? (fun p => containsSub title p.1) with
    | none => some (false, Hint.trackers valid_issue_tracker_handles)
    | some p =>
      match segmentAfterFirst title p.1 with
      | none => none
      | some seg =>
        match firstToken seg with
        | none => none
        | some tok =>
          if pyIsDigit tok then some (true, Hint.noHint)
          else some (false, Hint.numberMissing)

/-- Dispatch a pipeline index to its validator, in the order the source's
`lint_commit_message` calls them: 1 `has_title_and_body`,
2 `title_within_max_length`, 3 `has_title_body_separator`,
4 `has_trailing_line`, 5 `body_within_max_length`,
6 `title_starts_with_commit_type`, 7 `commit_type_require_issue_number`
(the gate), 8 `title_has_issue_number`. -/
def evalRule (i : Nat) (m : List MsgLine) : Option (Bool × Hint) :=
  match i with
  | 1 => has_title_and_body m
  | 2 => title_within_max_length m
  | 3 => has_title_body_separator m
  | 4 => has_trailing_line m
  | 5 => body_within_max_length m
  | 6 => title_starts_with_commit_type m
  | 7 => commit_type_require_issue_number m
  | 8 => title_has_issue_number m
  | _ => some (true, Hint.noHint)

/-- `idxFrom s n` is the list `[s, s+1, ..., s+n-1]` of pipeline indices. -/
def idxFrom : Nat → Nat → List Nat
  | _, 0 => []
  | s, n + 1 => s :: idxFrom (s + 1) n

/-- The fixed evaluation order of `lint_commit_message`. -/
def pipelineOrder : List Nat := idxFrom 1 8

/-- The fail-fast driver, mirroring the straight-line body of
`lint_commit_message`: evaluate the listed rules in order; a rule whose
flag is false ends the run — as a failure carrying that rule's hint, except
for the gate (index 7) whose false flag skips the remaining rule and
succeeds (the source falls through to `return 0`), and except for the
`(None, False)` number-missing marker: the source's rule-8 reporting block
runs `for handle, name in hint:` on that tuple, which raises TypeError
(unpacking `None`) before reaching `return 1`, so no verdict is produced
(`none`, like every other raise).  The first component records the indices
of the rules actually evaluated; the second is `none` when the run
raised. -/
def stepList (m : List MsgLine) : List Nat → List Nat × Option Verdict
  | [] => ([], some Verdict.allPassed)
  | i :: rest =>
    match evalRule i m with
    | none => ([i], none)
    | some (flag, hint) =>
      cond flag
        (i :: (stepList m rest).1, (stepList m rest).2)
        (if i = 7 then ([i], some Verdict.allPassed)
         else if hint = Hint.numberMissing then ([i], none)
         else ([i], some (Verdict.failedAt i hint)))

/-- The verdict of `lint_commit_message` on a parsed message (`none` when
a validator raised). -/
def lint_commit_message (m : List MsgLine) : Option Verdict :=
  (stepList m pipelineOrder).2

/-- The pipeline indices of the rules `lint_commit_message` actually
evaluates on `m`, in evaluation order. -/
def evaluatedRules (m : List MsgLine) : List Nat :=
  (stepList m pipelineOrder).1

/-- The exit-status mapping of `__main__`: the linter returns 0 on success
and 1 at each failing early return, and `sys.exit` propagates it. -/
def exitStatus : Verdict → Nat
  | Verdict.allPassed => 0
  | Verdict.failedAt _ _ => 1

/-- The process exit status (`none` when the run raised). -/
def hookExitCode (m : List MsgLine) : Option Nat :=
  (lint_commit_message m).map exitStatus

/-- Scenario A of the spec: feat-typed title without any tracker handle. -/
def scenarioA : List MsgLine :=
  ["feat: add x\n".toList, "\n".toList, "body line\n".toList, "\n".toList]

/-- Scenario B of the spec: feat-typed title with `gh:42`. -/
def scenarioB : List MsgLine :=
  ["feat: add x gh:42\n".toList, "\n".toList, "body line\n".toList, "\n".toList]

/-- Scenario C of the spec: chore-typed title, no issue number required. -/
def scenarioC : List MsgLine :=
  ["chore: cleanup\n".toList, "\n".toList, "body\n".toList, "\n".toList]

/-- Scenario D of the spec: second body line of 73 characters. -/
def scenarioD : List MsgLine :=
  ["feat: t\n".toList, "\n".toList, "b\n".toList,
   List.replicate 72 'a' ++ ['\n'], "\n".toList]

/-- Scenario E of the spec: feat-typed title with `jr:abc`. -/
def scenarioE : List MsgLine :=
  ["feat: add x jr:abc\n".toList, "\n".toList, "b\n".toList, "\n".toList]

/-- The first catalog entry whose handle occurs anywhere in the title
(the handle the source's rule-8 loop selects). -/
def claimFirstHandle (title : MsgLine) : Option (MsgLine × MsgLine) :=
  valid_issue_tracker_handles.find? (fun p => containsSub title p.1)

/-- Written from the claim's words, to be compared with the source: the
run of non-whitespace characters immediately following the first
occurrence of `handle` in `title`. -/
def claimDigitRun (title handle : MsgLine) : MsgLine :=
  match findSub title handle with
  | none => []
  | some i => (title.drop (i + handle.length)).takeWhile (fun c => !c.isWhitespace)

/-- The amended pass condition of rule 8, written from the corrected
claim: the first whitespace-delimited token of the segment of the title
strictly between the first and second occurrences of the selected handle
(to the end of the title when it occurs only once) exists and is all
digits. -/
def amendedPass (title : MsgLine) : Bool :=
  match claimFirstHandle title with
  | none => false
  | some p =>
    match segmentAfterFirst title p.1 with
    | none => false
    | some seg =>
      match firstToken seg with
      | none => false
      | some tok => pyIsDigit tok

lemma idxFrom_mem : ∀ (n s j : Nat), j ∈ idxFrom s n ↔ s ≤ j ∧ j < s + n := by
  intro n
  induction n with
  | zero => intro s j; simp [idxFrom]
  | succ k ih =>
    intro s j
    simp only [idxFrom, List.mem_cons, ih]
    omega

lemma stepList_fail_aux (m : List MsgLine) :
    ∀ (n s i : Nat) (h : Hint),
      (stepList m (idxFrom s n)).2 = some (Verdict.failedAt i h) →
      s ≤ i ∧ i < s + n ∧ i ≠ 7 ∧ evalRule i m = some (false, h) ∧
      (stepList m (idxFrom s n)).1 = idxFrom s (i + 1 - s) ∧
      ∀ j, s ≤ j → j < i → ∃ hj, evalRule j m = some (true, hj) := by
  intro n
  induction n with
  | zero =>
    intro s i h hv
    simp [idxFrom, stepList] at hv
  | succ k ih =>
    intro s i h hv
    simp only [idxFrom, stepList] at hv ⊢
    cases hev : evalRule s m with
    | none =>
      rw [hev] at hv
      simp at hv
    | some r =>
      obtain ⟨flag, hint⟩ := r
      rw [hev] at hv
      cases flag with
      | true =>
        simp only [Bool.cond_true] at hv ⊢
        obtain ⟨h1, h2, h3, h4, h5, h6⟩ := ih (s + 1) i h hv
        refine ⟨by omega, by omega, h3, h4, ?_, ?_⟩
        · rw [h5]
          have harith : i + 1 - s = (i + 1 - (s + 1)) + 1 := by omega
          rw [harith]
          rfl
        · intro j hsj hji
          rcases Nat.eq_or_lt_of_le hsj with rfl | hlt
          · exact ⟨hint, hev⟩
          · exact h6 j hlt hji
      | false =>
        simp only [Bool.cond_false] at hv ⊢
        by_cases hs : s = 7
        · rw [if_pos hs] at hv
          simp at hv
        · rw [if_neg hs] at hv ⊢
          by_cases hm : hint = Hint.numberMissing
          · rw [if_pos hm] at hv
            simp at hv
          · rw [if_neg hm] at hv ⊢
            simp only [Option.some.injEq, Verdict.failedAt.injEq] at hv
            obtain ⟨rfl, rfl⟩ := hv
            refine ⟨Nat.le_refl _, by omega, hs, hev, ?_, ?_⟩
            · have harith : s + 1 - s = 1 := by omega
              rw [harith]
              rfl
            · intro j hsj hji
              omega

lemma lineStartsWith_iff : ∀ (p s : MsgLine),
    lineStartsWith s p = true ↔ p.length ≤ s.length ∧ s.take p.length = p := by
  intro p
  induction p with
  | nil => intro s; simp [lineStartsWith]
  | cons b p ih =>
    intro s
    cases s with
    | nil => simp [lineStartsWith]
    | cons a s =>
      simp only [lineStartsWith, Bool.and_eq_true, beq_iff_eq, ih,
        List.length_cons, List.take_succ_cons, List.cons.injEq,
        Nat.add_le_add_iff_right]
      tauto

lemma containsSub_iff (s p : MsgLine) :
    containsSub s p = true ↔
      ∃ i, i + p.length ≤ s.length ∧ (s.drop i).take p.length = p := by
  unfold containsSub
  rw [List.any_eq_true]
  constructor
  · rintro ⟨i, hi, hsw⟩
    rw [List.mem_range] at hi
    rw [lineStartsWith_iff] at hsw
    refine ⟨i, ?_, hsw.2⟩
    have := hsw.1
    rw [List.length_drop] at this
    omega
  · rintro ⟨i, hle, htake⟩
    refine ⟨i, ?_, ?_⟩
    · rw [List.mem_range]
      omega
    · rw [lineStartsWith_iff]
      refine ⟨?_, htake⟩
      rw [List.length_drop]
      omega

lemma firstLongLine_none_iff : ∀ (ls : List MsgLine) (k : Nat),
    firstLongLine ls k = none ↔ ∀ l ∈ ls, l.length ≤ 72 := by
  intro ls
  induction ls with
  | nil => intro k; simp [firstLongLine]
  | cons a as ih =>
    intro k
    by_cases ha : 72 < a.length
    · simp only [firstLongLine, if_pos ha]
      constructor
      · intro hcontra; exact absurd hcontra (by simp)
      · intro hall
        exact absurd (hall a (List.mem_cons_self a as)) (by omega)
    · simp only [firstLongLine, if_neg ha, ih (k + 1), List.mem_cons]
      constructor
      · rintro hall l (rfl | hl)
        · omega
        · exact hall l hl
      · intro hall l hl
        exact hall l (Or.inr hl)

lemma firstLongLine_some_spec : ∀ (ls : List MsgLine) (k n : Nat),
    firstLongLine ls k = some n →
    k ≤ n ∧ ∃ l, ls.get? (n - k) = some l ∧ 72 < l.length ∧
      ∀ j l2, j < n - k → ls.get? j = some l2 → l2.length ≤ 72 := by
  intro ls
  induction ls with
  | nil => intro k n h; simp [firstLongLine] at h
  | cons a as ih =>
    intro k n h
    by_cases ha : 72 < a.length
    · rw [firstLongLine, if_pos ha, Option.some.injEq] at h
      subst h
      refine ⟨Nat.le_refl _, a, ?_, ha, ?_⟩
      · simp
      · intro j l2 hj _
        omega
    · rw [firstLongLine, if_neg ha] at h
      obtain ⟨h1, l, h2, h3, h4⟩ := ih (k + 1) n h
      refine ⟨by omega, l, ?_, h3, ?_⟩
      · have harith : n - k = (n - (k + 1)) + 1 := by omega
        rw [harith]
        simpa using h2
      · intro j l2 hj hget
        cases j with
        | zero =>
          simp only [List.get?] at hget
          cases hget
          omega
        | succ j2 =>
          simp only [List.get?] at hget
          exact h4 j2 l2 (by omega) hget

/-- C1: The engine is fail-fast: for every message, rules are evaluated
strictly in the fixed order 1 `has_title_and_body`,
2 `title_within_max_length`, 3 `has_title_body_separator`,
4 `has_trailing_line`, 5 `body_within_max_length`,
6 `title_starts_with_commit_type`, 7 the issue-number gate, and then
conditionally 8 `title_has_issue_number`; as soon as a rule fails, the
evaluated rules are exactly `[1, ..., i]` (no rule of higher index runs)
and that first failure, with its hint, is the final verdict. -/
theorem c1_fail_fast (m : List MsgLine) (i : Nat) (h : Hint)
    (hv : lint_commit_message m = some (Verdict.failedAt i h)) :
    1 ≤ i ∧ i ≤ 8 ∧ i ≠ 7 ∧
    evalRule i m = some (false, h) ∧
    evaluatedRules m = idxFrom 1 i ∧
    (∀ j, j ∈ evaluatedRules m ↔ 1 ≤ j ∧ j ≤ i) ∧
    (∀ j, 1 ≤ j → j < i → ∃ hj, evalRule j m = some (true, hj)) := by
  obtain ⟨h1, h2, h3, h4, h5, h6⟩ := stepList_fail_aux m 8 1 i h hv
  have htr : evaluatedRules m = idxFrom 1 i := by
    have harith : i + 1 - 1 = i := by omega
    rw [evaluatedRules, pipelineOrder, h5, harith]
  refine ⟨h1, by omega, h3, h4, htr, ?_, h6⟩
  intro j
  rw [htr, idxFrom_mem]
  omega

/-- Witness for C1 at the one-line message `["a"]`, which fails at rule 1. -/
theorem c1_fail_fast_witness :
    1 ≤ 1 ∧ (1 : Nat) ≤ 8 ∧ (1 : Nat) ≠ 7 ∧
    evalRule 1 ["a".toList] = some (false, Hint.noHint) ∧
    evaluatedRules ["a".toList] = idxFrom 1 1 ∧
    (∀ j, j ∈ evaluatedRules ["a".toList] ↔ 1 ≤ j ∧ j ≤ 1) ∧
    (∀ j, 1 ≤ j → j < 1 → ∃ hj, evalRule j ["a".toList] = some (true, hj)) :=
  c1_fail_fast ["a".toList] 1 Hint.noHint (by decide)

/-- C2: a message with fewer than 4 lines fails rule 1
(`has_title_and_body`), which fails exactly on such messages; the verdict
is a failure at rule 1 and no later rule is evaluated. -/
theorem c2_short_message (m : List MsgLine) (hlen : m.length < 4) :
    has_title_and_body m = some (false, Hint.noHint) ∧
    (∀ m2 : List MsgLine,
      has_title_and_body m2 = some (false, Hint.noHint) ↔ m2.length < 4) ∧
    lint_commit_message m = some (Verdict.failedAt 1 Hint.noHint) ∧
    evaluatedRules m = [1] := by
  have hfail : has_title_and_body m = some (false, Hint.noHint) := by
    simp only [has_title_and_body, Option.some.injEq, Prod.mk.injEq,
      decide_eq_false_iff_not, and_true]
    omega
  have hiff : ∀ m2 : List MsgLine,
      has_title_and_body m2 = some (false, Hint.noHint) ↔ m2.length < 4 := by
    intro m2
    simp only [has_title_and_body, Option.some.injEq, Prod.mk.injEq,
      decide_eq_false_iff_not, and_true]
    omega
  have h1 : evalRule 1 m = some (false, Hint.noHint) := hfail
  have hstep : stepList m pipelineOrder = ([1], some (Verdict.failedAt 1 Hint.noHint)) := by
    simp [pipelineOrder, idxFrom, stepList, h1]
  refine ⟨hfail, hiff, ?_, ?_⟩
  · show (stepList m pipelineOrder).2 = _
    rw [hstep]
  · show (stepList m pipelineOrder).1 = _
    rw [hstep]

/-- Witness for C2 at the one-line message `["a"]`. -/
theorem c2_short_message_witness :
    has_title_and_body ["a".toList] = some (false, Hint.noHint) ∧
    (∀ m2 : List MsgLine,
      has_title_and_body m2 = some (false, Hint.noHint) ↔ m2.length < 4) ∧
    lint_commit_message ["a".toList] = some (Verdict.failedAt 1 Hint.noHint) ∧
    evaluatedRules ["a".toList] = [1] :=
  c2_short_message ["a".toList] (by decide)

/-- C3: when rule 1 passes and the title is longer than 50 characters the
pipeline fails at rule 2 with hint 50; a title of length at most 50 passes
rule 2. -/
theorem c3_title_max_length (m : List MsgLine) (title : MsgLine)
    (ht : m.head? = some title) (h4 : 4 ≤ m.length) :
    (50 < title.length →
      lint_commit_message m = some (Verdict.failedAt 2 (Hint.maxLen 50)) ∧
      evaluatedRules m = [1, 2]) ∧
    (title.length ≤ 50 → title_within_max_length m = some (true, Hint.noHint)) := by
  have h1 : evalRule 1 m = some (true, Hint.noHint) := by
    simp only [evalRule, has_title_and_body, Option.some.injEq, Prod.mk.injEq,
      decide_eq_true_eq, and_true]
    omega
  constructor
  · intro hgt
    have h2 : evalRule 2 m = some (false, Hint.maxLen 50) := by
      simp [evalRule, title_within_max_length, ht, hgt]
    have hstep : stepList m pipelineOrder =
        ([1, 2], some (Verdict.failedAt 2 (Hint.maxLen 50))) := by
      simp [pipelineOrder, idxFrom, stepList, h1, h2]
    constructor
    · show (stepList m pipelineOrder).2 = _
      rw [hstep]
    · show (stepList m pipelineOrder).1 = _
      rw [hstep]
  · intro hle
    simp only [title_within_max_length, ht]
    rw [if_neg (by omega)]

/-- Witness for C3 at a 4-line message whose title has 51 characters. -/
theorem c3_title_max_length_witness :
    (50 < (List.replicate 51 'a').length →
      lint_commit_message
          [List.replicate 51 'a', "\n".toList, "b\n".toList, "\n".toList] =
        some (Verdict.failedAt 2 (Hint.maxLen 50)) ∧
      evaluatedRules
          [List.replicate 51 'a', "\n".toList, "b\n".toList, "\n".toList] = [1, 2]) ∧
    ((List.replicate 51 'a').length ≤ 50 →
      title_within_max_length
          [List.replicate 51 'a', "\n".toList, "b\n".toList, "\n".toList] =
        some (true, Hint.noHint)) :=
  c3_title_max_length
    [List.replicate 51 'a', "\n".toList, "b\n".toList, "\n".toList]
    (List.replicate 51 'a') rfl (by decide)

/-- Counterexample to C4 as stated: in the title `"feat: x gh:1gh:2 y\n"`
the first matching handle (in catalog order) is `gh:`, and the run of
non-whitespace characters immediately following its first occurrence is
`"1gh:2"`, which is not entirely composed of digits — so by the claim the
rule should fail; yet `title_has_issue_number` passes, because the source
computes `title.split("gh:")[1].split()[0] = "1"`, the token between the
first and second occurrences of the handle. -/
theorem c4_counterexample :
    claimFirstHandle ("feat: x gh:1gh:2 y\n".toList) =
      some ("gh:".toList, "github".toList) ∧
    claimDigitRun ("feat: x gh:1gh:2 y\n".toList) ("gh:".toList) = "1gh:2".toList ∧
    pyIsDigit ("1gh:2".toList) = false ∧
    ("1gh:2".toList).all Char.isDigit = false ∧
    title_has_issue_number
        ["feat: x gh:1gh:2 y\n".toList, "\n".toList, "body\n".toList, "\n".toList] =
      some (true, Hint.noHint) := by decide

/-- C4 amended: handle matching is an unanchored substring search (an
occurrence anywhere in the title counts, also mid-word) and only the first
catalog entry in the order jr:, gh:, gl:, bb:, lp: that occurs anywhere in
the title is considered; but the digit check applies to the first
whitespace-delimited token of the segment of the title strictly between
the first and second occurrences of the matched handle (to the end of the
title when it occurs only once), and the rule passes iff that token exists
and is entirely digits. -/
theorem c4_amended_extraction (m : List MsgLine) (title : MsgLine)
    (ht : m.head? = some title) :
    (title_has_issue_number m = some (true, Hint.noHint) ↔
      amendedPass title = true) ∧
    (∀ hd : MsgLine, containsSub title hd = true ↔
      ∃ i, i + hd.length ≤ title.length ∧ (title.drop i).take hd.length = hd) ∧
    (∀ p, claimFirstHandle title = some p →
      containsSub title p.1 = true ∧
      ∃ pre post, valid_issue_tracker_handles = pre ++ p :: post ∧
        ∀ q ∈ pre, containsSub title q.1 = false) := by
  refine ⟨?_, fun hd => containsSub_iff title hd, ?_⟩
  · simp only [title_has_issue_number, ht, amendedPass, claimFirstHandle]
    cases hf : valid_issue_tracker_handles.find? (fun q => containsSub title q.1) with
    | none => simp [hf]
    | some p =>
      cases hseg : segmentAfterFirst title p.1 with
      | none => simp [hf, hseg]
      | some seg =>
        cases htok : firstToken seg with
        | none => simp [hf, hseg, htok]
        | some tok =>
          by_cases hdig : pyIsDigit tok = true
          · simp [hf, hseg, htok, hdig]
          · simp only [Bool.not_eq_true] at hdig
            simp [hf, hseg, htok, hdig]
  · intro p hp
    simp only [claimFirstHandle, valid_issue_tracker_handles, List.find?] at hp
    by_cases c1 : containsSub title ("jr:".toList) = true
    · simp only [c1] at hp
      obtain rfl := Option.some.inj hp
      exact ⟨c1, [], _, rfl, by simp⟩
    · simp only [Bool.not_eq_true] at c1
      simp only [c1] at hp
      by_cases c2 : containsSub title ("gh:".toList) = true
      · simp only [c2] at hp
        obtain rfl := Option.some.inj hp
        refine ⟨c2, [("jr:".toList, "jira".toList)], _, rfl, ?_⟩
        intro q hq
        fin_cases hq
        · exact c1
      · simp only [Bool.not_eq_true] at c2
        simp only [c2] at hp
        by_cases c3 : containsSub title ("gl:".toList) = true
        · simp only [c3] at hp
          obtain rfl := Option.some.inj hp
          refine ⟨c3, [("jr:".toList, "jira".toList), ("gh:".toList, "github".toList)],
            _, rfl, ?_⟩
          intro q hq
          fin_cases hq
          · exact c1
          · exact c2
        · simp only [Bool.not_eq_true] at c3
          simp only [c3] at hp
          by_cases c4 : containsSub title ("bb:".toList) = true
          · simp only [c4] at hp
            obtain rfl := Option.some.inj hp
            refine ⟨c4, [("jr:".toList, "jira".toList), ("gh:".toList, "github".toList),
              ("gl:".toList, "gitlab".toList)], _, rfl, ?_⟩
            intro q hq
            fin_cases hq
            · exact c1
            · exact c2
            · exact c3
          · simp only [Bool.not_eq_true] at c4
            simp only [c4] at hp
            by_cases c5 : containsSub title ("lp:".toList) = true
            · simp only [c5] at hp
              obtain rfl := Option.some.inj hp
              refine ⟨c5, [("jr:".toList, "jira".toList), ("gh:".toList, "github".toList),
                ("gl:".toList, "gitlab".toList), ("bb:".toList, "bitbucket".toList)],
                _, rfl, ?_⟩
              intro q hq
              fin_cases hq
              · exact c1
              · exact c2
              · exact c3
              · exact c4
            · simp only [Bool.not_eq_true] at c5
              simp only [c5] at hp
              exact absurd hp (by simp)

/-- Witness for C4 amended at the message with title `"feat: add x gh:42\n"`. -/
theorem c4_amended_extraction_witness :
    (title_has_issue_number
        ["feat: add x gh:42\n".toList, "\n".toList, "b\n".toList, "\n".toList] =
        some (true, Hint.noHint) ↔
      amendedPass ("feat: add x gh:42\n".toList) = true) ∧
    (∀ hd : MsgLine, containsSub ("feat: add x gh:42\n".toList) hd = true ↔
      ∃ i, i + hd.length ≤ ("feat: add x gh:42\n".toList).length ∧
        (("feat: add x gh:42\n".toList).drop i).take hd.length = hd) ∧
    (∀ p, claimFirstHandle ("feat: add x gh:42\n".toList) = some p →
      containsSub ("feat: add x gh:42\n".toList) p.1 = true ∧
      ∃ pre post, valid_issue_tracker_handles = pre ++ p :: post ∧
        ∀ q ∈ pre, containsSub ("feat: add x gh:42\n".toList) q.1 = false) :=
  c4_amended_extraction
    ["feat: add x gh:42\n".toList, "\n".toList, "b\n".toList, "\n".toList]
    ("feat: add x gh:42\n".toList) rfl

/-- C5 is refuted by the code: on a title whose tracker handle is followed
only by the newline, `title.split("gh:")[1]` is `"\n"` and `"\n".split()`
is empty, so `title.split("gh:")[1].split()[0]` raises IndexError instead
of returning the "number missing" outcome the claim (and the function's
own docstring) describes; the model returns `none` (the raise) and the
pipeline propagates it. -/
theorem c5_handle_at_end_raises :
    claimFirstHandle ("feat: add gh:\n".toList) =
      some ("gh:".toList, "github".toList) ∧
    segmentAfterFirst ("feat: add gh:\n".toList) ("gh:".toList) =
      some ("\n".toList) ∧
    firstToken ("\n".toList) = none ∧
    title_has_issue_number
        ["feat: add gh:\n".toList, "\n".toList, "b\n".toList, "\n".toList] = none ∧
    lint_commit_message
        ["feat: add gh:\n".toList, "\n".toList, "b\n".toList, "\n".toList] = none := by
  decide

/-- C6 on the code: rule 8 itself returns exactly the two documented
failure hints — the full ordered catalog when no handle occurs in the
title (Scenario A, which the driver surfaces as a failure at rule 8 with
the catalog hint) and the "number missing" marker when a handle matched
but the extracted token is not all digits (Scenario E) — but on the
marker the driver's reporting block runs `for handle, name in hint:` on
the `(None, False)` tuple and raises TypeError (unpacking `None`) before
reaching `return 1`, so Scenario E produces no verdict at all instead of
the claimed failure-with-marker. -/
theorem c6_number_missing_crash :
    title_has_issue_number scenarioA =
      some (false, Hint.trackers valid_issue_tracker_handles) ∧
    lint_commit_message scenarioA =
      some (Verdict.failedAt 8 (Hint.trackers valid_issue_tracker_handles)) ∧
    title_has_issue_number scenarioE = some (false, Hint.numberMissing) ∧
    lint_commit_message scenarioE = none := by decide

/-- C7: rule 5 passes iff every line of the body slice `lines[2:-1]` has
length at most 72; on failure the hint is the 1-based position within the
body slice of the first offending line; Scenario D (second body line of 73
characters) fails at rule 5 with hint 2. -/
theorem c7_body_max_length (m : List MsgLine) :
    (body_within_max_length m = some (true, Hint.noHint) ↔
      ∀ l ∈ (m.drop 2).dropLast, l.length ≤ 72) ∧
    (∀ n, body_within_max_length m = some (false, Hint.lineNo n) →
      1 ≤ n ∧ ∃ l, ((m.drop 2).dropLast).get? (n - 1) = some l ∧ 72 < l.length ∧
        ∀ j l2, j < n - 1 → ((m.drop 2).dropLast).get? j = some l2 →
          l2.length ≤ 72) ∧
    lint_commit_message scenarioD = some (Verdict.failedAt 5 (Hint.lineNo 2)) := by
  refine ⟨?_, ?_, by decide⟩
  · constructor
    · intro hpass
      have hfl : firstLongLine ((m.drop 2).dropLast) 1 = none := by
        cases hx : firstLongLine ((m.drop 2).dropLast) 1 with
        | none => rfl
        | some n => simp [body_within_max_length, hx] at hpass
      exact (firstLongLine_none_iff _ 1).mp hfl
    · intro hall
      have hfl : firstLongLine ((m.drop 2).dropLast) 1 = none :=
        (firstLongLine_none_iff _ 1).mpr hall
      simp [body_within_max_length, hfl]
  · intro n hn
    have hfl : firstLongLine ((m.drop 2).dropLast) 1 = some n := by
      cases hx : firstLongLine ((m.drop 2).dropLast) 1 with
      | none => simp [body_within_max_length, hx] at hn
      | some n2 =>
        simp only [body_within_max_length, hx, Option.some.injEq, Prod.mk.injEq,
          Hint.lineNo.injEq, true_and] at hn
        rw [hn]
    exact firstLongLine_some_spec _ 1 n hfl

/-- Witness for C7 at Scenario D's message. -/
theorem c7_body_max_length_witness :
    body_within_max_length scenarioD = some (false, Hint.lineNo 2) ∧
    (1 ≤ 2 ∧ ∃ l, ((scenarioD.drop 2).dropLast).get? (2 - 1) = some l ∧
      72 < l.length ∧
      ∀ j l2, j < 2 - 1 → ((scenarioD.drop 2).dropLast).get? j = some l2 →
        l2.length ≤ 72) :=
  ⟨by decide, (c7_body_max_length scenarioD).2.1 2 (by decide)⟩

/-- C8: rule 7 is a gate that never fails the pipeline: its flag is true
exactly when the title starts with `feat:` or `fix:` and its hint is
always `None`; no pipeline failure ever carries index 7; Scenario C
(chore-typed title) reaches the all-passed verdict. -/
theorem c8_gate_never_fails (m : List MsgLine) (title : MsgLine)
    (ht : m.head? = some title) :
    commit_type_require_issue_number m =
      some (lineStartsWith title ("feat:".toList) ||
        lineStartsWith title ("fix:".toList), Hint.noHint) ∧
    (∀ i h, lint_commit_message m = some (Verdict.failedAt i h) → i ≠ 7) ∧
    lint_commit_message scenarioC = some Verdict.allPassed := by
  refine ⟨?_, ?_, by decide⟩
  · simp only [commit_type_require_issue_number, ht]
    by_cases hc : (lineStartsWith title ("feat:".toList) ||
        lineStartsWith title ("fix:".toList)) = true
    · rw [if_pos hc, hc]
    · rw [if_neg hc]
      simp only [Bool.not_eq_true] at hc
      rw [hc]
  · intro i h hv
    exact (stepList_fail_aux m 8 1 i h hv).2.2.1

/-- Witness for C8 at Scenario C's message. -/
theorem c8_gate_never_fails_witness :
    commit_type_require_issue_number scenarioC =
      some (lineStartsWith ("chore: cleanup\n".toList) ("feat:".toList) ||
        lineStartsWith ("chore: cleanup\n".toList) ("fix:".toList), Hint.noHint) ∧
    (∀ i h, lint_commit_message scenarioC = some (Verdict.failedAt i h) → i ≠ 7) ∧
    lint_commit_message scenarioC = some Verdict.allPassed :=
  c8_gate_never_fails scenarioC ("chore: cleanup\n".toList) rfl

/-- C9: whenever the pipeline returns a verdict, the exit status is 0
exactly when all rules passed and 1 exactly on a failure verdict; on
Scenario B every rule passes and the exit status is 0. -/
theorem c9_exit_status (m : List MsgLine) (v : Verdict)
    (hv : lint_commit_message m = some v) :
    (hookExitCode m = some 0 ↔ v = Verdict.allPassed) ∧
    (hookExitCode m = some 1 ↔ ∃ i h, v = Verdict.failedAt i h) ∧
    lint_commit_message scenarioB = some Verdict.allPassed ∧
    hookExitCode scenarioB = some 0 := by
  refine ⟨?_, ?_, by decide, by decide⟩
  · rw [hookExitCode, hv]
    cases v with
    | allPassed => simp [exitStatus]
    | failedAt i h => simp [exitStatus]
  · rw [hookExitCode, hv]
    cases v with
    | allPassed => simp [exitStatus]
    | failedAt i h =>
      simp only [Option.map_some', exitStatus, Option.some.injEq]
      constructor
      · intro _
        exact ⟨i, h, rfl⟩
      · intro _
        trivial

/-- Witness for C9 at Scenario B's message. -/
theorem c9_exit_status_witness :
    (hookExitCode scenarioB = some 0 ↔ Verdict.allPassed = Verdict.allPassed) ∧
    (hookExitCode scenarioB = some 1 ↔
      ∃ i h, Verdict.allPassed = Verdict.failedAt i h) ∧
    lint_commit_message scenarioB = some Verdict.allPassed ∧
    hookExitCode scenarioB = some 0 :=
  c9_exit_status scenarioB Verdict.allPassed (by decide)

/-- C10: lengths count the trailing newline: a title of 50 visible
characters plus a newline fails rule 2 with hint 50 (the effective visible
limit is 49), and a body line of 72 visible characters plus a newline
fails rule 5 (the effective visible limit is 71). -/
theorem c10_newline_counts (m : List MsgLine) (s t : MsgLine)
    (hs : m.head? = some (s ++ ['\n']))
    (htl : (t ++ ['\n']) ∈ (m.drop 2).dropLast) :
    (s.length = 50 → title_within_max_length m = some (false, Hint.maxLen 50)) ∧
    (title_within_max_length m = some (true, Hint.noHint) ↔ s.length ≤ 49) ∧
    (t.length = 72 →
      ∃ n, body_within_max_length m = some (false, Hint.lineNo n)) ∧
    (body_within_max_length m = some (true, Hint.noHint) → t.length ≤ 71) := by
  refine ⟨?_, ?_, ?_, ?_⟩
  · intro h50
    simp only [title_within_max_length, hs]
    rw [if_pos (by simp [h50])]
  · by_cases hc : 50 < (s ++ ['\n']).length
    · simp only [title_within_max_length, hs]
      rw [if_pos hc]
      simp only [List.length_append, List.length_cons, List.length_nil] at hc
      simp
      omega
    · simp only [title_within_max_length, hs]
      rw [if_neg hc]
      simp only [List.length_append, List.length_cons, List.length_nil] at hc
      simp
      omega
  · intro h72
    have hex : ∃ n, firstLongLine ((m.drop 2).dropLast) 1 = some n := by
      by_contra hne
      push_neg at hne
      have hnone : firstLongLine ((m.drop 2).dropLast) 1 = none := by
        cases hx : firstLongLine ((m.drop 2).dropLast) 1 with
        | none => rfl
        | some n => exact absurd hx (hne n)
      have hle := (firstLongLine_none_iff _ 1).mp hnone (t ++ ['\n']) htl
      simp [h72] at hle
    obtain ⟨n, hn⟩ := hex
    exact ⟨n, by simp [body_within_max_length, hn]⟩
  · intro hpass
    have hfl : firstLongLine ((m.drop 2).dropLast) 1 = none := by
      cases hx : firstLongLine ((m.drop 2).dropLast) 1 with
      | none => rfl
      | some n => simp [body_within_max_length, hx] at hpass
    have hle := (firstLongLine_none_iff _ 1).mp hfl (t ++ ['\n']) htl
    simp only [List.length_append, List.length_cons, List.length_nil] at hle
    omega

/-- Witness for C10 at a message whose title has 50 visible characters
plus a newline and whose only body line has 72 visible characters plus a
newline. -/
theorem c10_newline_counts_witness :
    ((List.replicate 50 'x').length = 50 →
      title_within_max_length
          [List.replicate 50 'x' ++ ['\n'], "\n".toList,
            List.replicate 72 'y' ++ ['\n'], "\n".toList] =
        some (false, Hint.maxLen 50)) ∧
    (title_within_max_length
          [List.replicate 50 'x' ++ ['\n'], "\n".toList,
            List.replicate 72 'y' ++ ['\n'], "\n".toList] =
        some (true, Hint.noHint) ↔ (List.replicate 50 'x').length ≤ 49) ∧
    ((List.replicate 72 'y').length = 72 →
      ∃ n, body_within_max_length
          [List.replicate 50 'x' ++ ['\n'], "\n".toList,
            List.replicate 72 'y' ++ ['\n'], "\n".toList] =
        some (false, Hint.lineNo n)) ∧
    (body_within_max_length
          [List.replicate 50 'x' ++ ['\n'], "\n".toList,
            List.replicate 72 'y' ++ ['\n'], "\n".toList] =
        some (true, Hint.noHint) → (List.replicate 72 'y').length ≤ 71) :=
  c10_newline_counts
    [List.replicate 50 'x' ++ ['\n'], "\n".toList,
      List.replicate 72 'y' ++ ['\n'], "\n".toList]
    (List.replicate 50 'x') (List.replicate 72 'y') rfl (by decide)
